import Mathlib

/-!
Shallow embedding of the replica-routing and testing engine of the
distributed-mysql-testing repository.

Sources embedded:
- `src/database/connection_manager.py` (`DatabaseConnectionManager.__init__`,
  `get_slave_connection`, `_weighted_random_selection`, `health_check`);
- `src/tests/consistency_test.py` (`_read_and_verify`, `_test_replication_lag`);
- `src/tests/stability_test.py` (`_test_connection_pool_exhaustion`,
  `_simulate_failover_test`).

Python floats are modelled as rationals; wall-clock readings (`time.time()`)
and the random draw (`random.uniform`) become explicit parameters; database
I/O outcomes become explicit `Except`/`Option`-shaped inputs.
-/

namespace DistMySQL

/-- One entry of the `db_configs` list handed to `DatabaseConnectionManager`. -/
structure DBConfig where
  host : String
  port : Nat
  user : String
  password : String
  db : String
deriving Repr, DecidableEq

/-- The attributes of `DatabaseConnectionManager` that the routing logic reads.
`connection_pools` keeps the keys of the Python dict; `server_health` models
`self.server_health.get(name, False)`. -/
structure ManagerState where
  db_configs : List DBConfig
  master_config : Option DBConfig
  slave_configs : List DBConfig
  connection_pools : List String
  server_health : String → Bool
  slave_weights : List ℚ

/-- `DatabaseConnectionManager.__init__` (connection_manager.py lines 22-42).
The Python body performs no validation and cannot raise: the `Except` layer
makes the absence of an error channel explicit.  Both dicts start empty, the
weights start at 1.0 per slave. -/
def DatabaseConnectionManager.init (db_configs : List DBConfig) :
    Except String ManagerState :=
  Except.ok
    { db_configs := db_configs
      master_config := db_configs.head?
      slave_configs := if db_configs.length > 1 then db_configs.drop 1 else []
      connection_pools := []
      server_health := fun _ => false
      slave_weights :=
        List.replicate (if db_configs.length > 1 then db_configs.drop 1 else []).length 1 }

/-- The accumulation loop of `_weighted_random_selection` (lines 136-141):
`cumulative` starts at the first argument; the first pair whose running
cumulative weight reaches `rand_val` is returned (the pair, so that the chosen
weight stays visible; the source returns only the name). -/
def selectLoop (rand_val : ℚ) : ℚ → List (String × ℚ) → Option (String × ℚ)
  | _, [] => none
  | cumulative, (server_name, weight) :: rest =>
    if rand_val ≤ cumulative + weight then some (server_name, weight)
    else selectLoop rand_val (cumulative + weight) rest

/-- `_weighted_random_selection` (connection_manager.py lines 128-143), with
the draw `random.uniform(0, total_weight)` supplied as `rand_val`.  On the
empty list the Python code would raise `IndexError`; every caller guards
against that, and the `headD`/`getLastD` defaults are never read there. -/
def weighted_random_selection (available_slaves : List (String × ℚ))
    (rand_val : ℚ) : String :=
  let total_weight := (available_slaves.map Prod.snd).sum
  if total_weight = 0 then
    (available_slaves.headD ("", 0)).1
  else
    match selectLoop rand_val 0 available_slaves with
    | some p => p.1
    | none => (available_slaves.getLastD ("", 0)).1

/-- Which server backs the connection handed out by the router. -/
inductive Conn where
  | master
  | slave (name : String)
deriving Repr, DecidableEq

/-- The `available_slaves` list built at the top of `get_slave_connection`
(lines 88-94): slaves whose pool exists and whose health flag is true, paired
with their current weight.  `__init__` keeps `slave_weights` the same length
as `slave_configs`, so the `getD` default is never read. -/
def available_slaves (st : ManagerState) : List (String × ℚ) :=
  (List.range st.slave_configs.length).filterMap fun i =>
    let slave_name := "slave_" ++ toString (i + 1)
    if slave_name ∈ st.connection_pools ∧ st.server_health slave_name = true then
      some (slave_name, st.slave_weights.getD i 0)
    else none

/-- `get_master_connection` (connection_manager.py lines 74-82): raises when
the `"master"` pool was never created (`raise Exception(...)`, lines 77-78),
otherwise acquires from the master pool and yields a master-backed
connection. -/
def get_master_connection (st : ManagerState) : Except String Conn :=
  if "master" ∈ st.connection_pools then Except.ok Conn.master
  else Except.error ("Master 연결 풀이 초기화되지 않음")

/-- `get_slave_connection` (connection_manager.py lines 85-112), returning the
server that backs the yielded connection.  When no slave is available it
delegates to `get_master_connection` (line 99), inheriting that function's
exception when the master pool is missing.  A supplied `prefer_server` that
is not among the available names falls through to the weighted draw, exactly
as in the source (Python's empty-string falsiness agrees: `""` never names a
slave). -/
def get_slave_connection (st : ManagerState) (prefer_server : Option String)
    (rand_val : ℚ) : Except String Conn :=
  let avail := available_slaves st
  if avail = [] then get_master_connection st
  else
    match prefer_server with
    | some p =>
      if p ∈ avail.map Prod.fst then Except.ok (Conn.slave p)
      else Except.ok (Conn.slave (weighted_random_selection avail rand_val))
    | none => Except.ok (Conn.slave (weighted_random_selection avail rand_val))

/-- Outcome of the two probe round-trips run by `health_check` for one server:
either both succeed and the second is timed (`response_time`, seconds), or
some exception was raised. -/
inductive ProbeResult where
  | ok (response_time : ℚ)
  | fail
deriving Repr, DecidableEq

/-- The per-server body of `health_check` (connection_manager.py lines
154-190): given whether the server is a `slave_*` entry and its current weight
slot, produce the new `(server_health[name], weight)` pair.  The weight slot
of the master is not touched by either branch. -/
def health_check_node (is_slave : Bool) (weight : ℚ) :
    ProbeResult → Bool × ℚ
  | .ok response_time =>
    (true,
      if is_slave then
        if response_time < 0.05 then 1.2
        else if response_time < 0.1 then 1.0
        else 0.8
      else weight)
  | .fail => (false, if is_slave then 0 else weight)

/-- A row of the `consistency_test` table as returned by the SELECT in
`_read_and_verify`. -/
structure StoredRow where
  test_data : String
  checksum : String
deriving Repr, DecidableEq

/-- What the read inside `_read_and_verify` produced: a row, no row, or an
exception somewhere in connect/execute/fetch. -/
inductive ReadOutcome where
  | ok (row : Option StoredRow)
  | err
deriving Repr, DecidableEq

/-- `_read_and_verify` (consistency_test.py lines 190-212).  `md5` abstracts
`hashlib.md5(...).hexdigest()`; the checksum is recomputed from
`test_id + expected_data`.  The `try/except` returning `False` makes the
function total: no outcome raises. -/
def read_and_verify (md5 : String → String) (outcome : ReadOutcome)
    (test_id expected_data : String) : Bool :=
  match outcome with
  | .err => false
  | .ok none => false
  | .ok (some row) =>
    row.test_data == expected_data && row.checksum == md5 (test_id ++ expected_data)

/-- One replica-polling episode of `_test_replication_lag`: the wall clock at
the end of the canary write, at the start of the polling loop, and the clock
reading paired with the `_read_and_verify` result at each iteration of the
`while` loop. -/
structure LagRun where
  write_end : ℚ
  read_start : ℚ
  polls : List (ℚ × Bool)
deriving Repr, DecidableEq

/-- The polling `while` loop of `_test_replication_lag` (consistency_test.py
lines 124-134): before each verify the 5-second ceiling is checked against
the current clock; a successful verify records `now - write_end` and stops;
reaching the ceiling (or running out of trace) records nothing. -/
def poll_loop (write_end read_start : ℚ) : List (ℚ × Bool) → Option ℚ
  | [] => none
  | (now, matched) :: rest =>
    if now - read_start < 5 then
      if matched then some (now - write_end)
      else poll_loop write_end read_start rest
    else none

/-- Aggregates of `_test_replication_lag` (lines 139-156). -/
structure LagResult where
  avg_lag_seconds : ℚ
  max_lag_seconds : ℚ
  min_lag_seconds : ℚ
  measurements : List ℚ
deriving Repr, DecidableEq

/-- The statistics block of `_test_replication_lag` (lines 140-146): average,
maximum and minimum over the collected samples, all zero when there are
none. -/
def lag_stats : List ℚ → ℚ × ℚ × ℚ
  | [] => (0, 0, 0)
  | t :: ts => ((t :: ts).sum / ((t :: ts).length : ℚ), ts.foldl max t, ts.foldl min t)

/-- `_test_replication_lag` (consistency_test.py lines 106-156): each run
contributes its first-match lag sample, runs that never match contribute
nothing, and the aggregates are computed over the collected samples. -/
def test_replication_lag (runs : List LagRun) : LagResult :=
  let lag_measurements :=
    runs.filterMap fun run => poll_loop run.write_end run.read_start run.polls
  let s := lag_stats lag_measurements
  { avg_lag_seconds := s.1
    max_lag_seconds := s.2.1
    min_lag_seconds := s.2.2
    measurements := lag_measurements }

/-- `connection_stability` classification of the capacity probe. -/
inductive Stability where
  | GOOD
  | POOR
deriving Repr, DecidableEq

/-- Result record of `_test_connection_pool_exhaustion` (stability_test.py
lines 263-268); `connection_errors` is the length of the error list. -/
structure PoolExhaustionResult where
  max_successful_connections : Nat
  connection_errors : Nat
  connection_stability : Stability
deriving Repr, DecidableEq

/-- One escalation batch of the capacity probe: the batch size and the
per-task outcome of `create_connection` (`true` = connection acquired,
`false` = an exception was appended to `connection_errors`). -/
structure Batch where
  batch_size : Nat
  outcomes : List Bool
deriving Repr, DecidableEq

/-- The per-batch body of the capacity-probe loop (stability_test.py lines
219-257): count the batch's successes, fold them into the running maximum,
and extend the running error count. -/
def batch_step (acc : Nat × Nat) (b : Batch) : Nat × Nat :=
  let successful_connections := (b.outcomes.filter fun o => o = true).length
  let batch_errors := (b.outcomes.filter fun o => o = false).length
  (max acc.1 successful_connections, acc.2 + batch_errors)

/-- `_test_connection_pool_exhaustion` (stability_test.py lines 211-268):
fold the batches in schedule order starting from zero successes and zero
errors, then classify stability by the total error count. -/
def test_connection_pool_exhaustion (batches : List Batch) : PoolExhaustionResult :=
  let res := batches.foldl batch_step (0, 0)
  { max_successful_connections := res.1
    connection_errors := res.2
    connection_stability := if res.2 < 10 then Stability.GOOD else Stability.POOR }

/-- The fields of `_measure_performance`'s result that the failover
simulation reads (stability_test.py lines 354-359). -/
structure PerfResult where
  qps : ℚ
  avg_response_time : ℚ
deriving Repr, DecidableEq

/-- `recovery_quality` tiers of the failover simulation. -/
inductive RecoveryQuality where
  | EXCELLENT
  | GOOD
  | NEEDS_IMPROVEMENT
deriving Repr, DecidableEq

/-- Result record of `_simulate_failover_test` (stability_test.py lines
314-322). -/
structure FailoverResult where
  recovery_time_seconds : ℚ
  normal_qps : ℚ
  recovery_qps : ℚ
  performance_impact_percent : ℚ
  recovery_quality : RecoveryQuality
  recovery_success : Bool
deriving Repr, DecidableEq

/-- The result computation of `_simulate_failover_test` (stability_test.py
lines 270-322).  `failure_start` is the clock reading taken before the
5-second outage sleep (line 280); `failure_end` is the reading taken only
AFTER the 30-second recovery measurement `_measure_performance(duration=30,
use_slave=True)` has returned (line 291) — so in any completed run
`failure_end - failure_start` spans the outage plus the recovery
measurement, at least 35 seconds (see `measure_loop_exit` and
`failover_never_excellent`), never the 5-second outage window alone.  The
arithmetic on the two readings and the two performance records is as in the
source. -/
def simulate_failover_test (failure_start failure_end : ℚ)
    (normal_performance recovery_performance : PerfResult) : FailoverResult :=
  let recovery_time := failure_end - failure_start
  let performance_degradation :=
    (normal_performance.avg_response_time - recovery_performance.avg_response_time)
      / normal_performance.avg_response_time * 100
  let recovery_quality :=
    if recovery_time ≤ 30 ∧ |performance_degradation| ≤ 20 then
      RecoveryQuality.EXCELLENT
    else if recovery_time ≤ 60 ∧ |performance_degradation| ≤ 40 then
      RecoveryQuality.GOOD
    else RecoveryQuality.NEEDS_IMPROVEMENT
  { recovery_time_seconds := recovery_time
    normal_qps := normal_performance.qps
    recovery_qps := recovery_performance.qps
    performance_impact_percent := |performance_degradation|
    recovery_quality := recovery_quality
    recovery_success := decide (recovery_time ≤ 30) }

/-- The timing skeleton of `_measure_performance`'s while loop
(stability_test.py lines 333-348): the loop condition reads the clock at each
iteration and the loop body runs only while `now - start_time < duration`,
so the loop exits at the first clock reading at least `duration` past
`start_time` (`none` models a trace that ends before the window closes,
i.e. a run that never completed). -/
def measure_loop_exit (start_time duration : ℚ) : List ℚ → Option ℚ
  | [] => none
  | now :: rest =>
    if now - start_time < duration then measure_loop_exit start_time duration rest
    else some now

/-- Cumulative weight of the first `k + 1` entries of an `available_slaves`
list: the value of `cumulative` in `_weighted_random_selection` after the
loop has processed entry `k`. -/
def cumWeight (l : List (String × ℚ)) (k : Nat) : ℚ :=
  ((l.map Prod.snd).take (k + 1)).sum

/-! ## Lemmas about the selection loop -/

theorem cumWeight_cons_zero (s : String) (w : ℚ) (tl : List (String × ℚ)) :
    cumWeight ((s, w) :: tl) 0 = w := by
  simp [cumWeight]

theorem cumWeight_cons_succ (s : String) (w : ℚ) (tl : List (String × ℚ)) (k : Nat) :
    cumWeight ((s, w) :: tl) (k + 1) = w + cumWeight tl k := by
  simp [cumWeight, List.take_succ_cons]

theorem selectLoop_mem {r c : ℚ} {l : List (String × ℚ)} {p : String × ℚ}
    (h : selectLoop r c l = some p) : p ∈ l := by
  induction l generalizing c with
  | nil => simp [selectLoop] at h
  | cons hd tl ih =>
    obtain ⟨s, w⟩ := hd
    rw [selectLoop] at h
    split at h
    · cases h
      exact List.mem_cons_self _ _
    · exact List.mem_cons_of_mem _ (ih h)

theorem selectLoop_pos {r c : ℚ} {l : List (String × ℚ)} {p : String × ℚ}
    (h : selectLoop r c l = some p) (hc : c < r) : 0 < p.2 := by
  induction l generalizing c with
  | nil => simp [selectLoop] at h
  | cons hd tl ih =>
    obtain ⟨s, w⟩ := hd
    rw [selectLoop] at h
    split at h
    · cases h
      rename_i hle
      simp only
      linarith
    · rename_i hlt
      exact ih h (by linarith [not_le.mp hlt])

theorem selectLoop_isSome {r c : ℚ} {l : List (String × ℚ)} (hne : l ≠ [])
    (h : r ≤ c + (l.map Prod.snd).sum) : (selectLoop r c l).isSome := by
  induction l generalizing c with
  | nil => exact absurd rfl hne
  | cons hd tl ih =>
    obtain ⟨s, w⟩ := hd
    rw [selectLoop]
    split
    · rfl
    · rename_i hlt
      rcases List.eq_nil_or_concat tl with htl | _
      · subst htl
        simp at h
        exact absurd h hlt
      · have htl : tl ≠ [] := by
          rintro rfl
          simp at h
          exact hlt h
        apply ih htl
        simp only [List.map_cons, List.sum_cons] at h
        linarith

theorem selectLoop_first {r c : ℚ} {l : List (String × ℚ)} {p : String × ℚ}
    (h : selectLoop r c l = some p) :
    ∃ k, ∃ hk : k < l.length, p = l.get ⟨k, hk⟩ ∧ r ≤ c + cumWeight l k ∧
      ∀ j, j < k → c + cumWeight l j < r := by
  induction l generalizing c with
  | nil => simp [selectLoop] at h
  | cons hd tl ih =>
    obtain ⟨s, w⟩ := hd
    rw [selectLoop] at h
    split at h
    · cases h
      rename_i hle
      refine ⟨0, by simp, rfl, ?_, by omega⟩
      rw [cumWeight_cons_zero]
      exact hle
    · rename_i hlt
      obtain ⟨k, hk, hget, hub, hlb⟩ := ih h
      refine ⟨k + 1, by simpa using Nat.succ_lt_succ hk, by simpa using hget, ?_, ?_⟩
      · rw [cumWeight_cons_succ]
        linarith
      · intro j hj
        cases j with
        | zero =>
          rw [cumWeight_cons_zero]
          linarith [not_le.mp hlt]
        | succ j =>
          rw [cumWeight_cons_succ]
          have := hlb j (by omega)
          linarith

theorem selectLoop_eq_none {r c : ℚ} {l : List (String × ℚ)}
    (hw : ∀ q ∈ l, 0 ≤ q.2) (h : c + (l.map Prod.snd).sum < r) :
    selectLoop r c l = none := by
  induction l generalizing c with
  | nil => rfl
  | cons hd tl ih =>
    obtain ⟨s, w⟩ := hd
    have hsum : (0 : ℚ) ≤ (tl.map Prod.snd).sum := by
      apply List.sum_nonneg
      intro x hx
      obtain ⟨q, hq, rfl⟩ := List.mem_map.mp hx
      exact hw q (List.mem_cons_of_mem _ hq)
    simp only [List.map_cons, List.sum_cons] at h
    rw [selectLoop]
    rw [if_neg (by push_neg; linarith)]
    exact ih (fun q hq => hw q (List.mem_cons_of_mem _ hq)) (by linarith)

theorem List_headD_eq {α : Type} (l : List α) (h : l ≠ []) (d : α) :
    l.headD d = l.head h := by
  cases l with
  | nil => exact absurd rfl h
  | cons a as => rfl

theorem List_getLastD_eq {α : Type} (l : List α) (h : l ≠ []) (d : α) :
    l.getLastD d = l.getLast h := by
  cases l with
  | nil => exact absurd rfl h
  | cons a as => rw [List.getLastD_eq_getLast?, List.getLast?_eq_getLast _ h]
                 rfl

/-! ## Claim theorems about the weighted selection -/

/-- C5: the weighted random selection, on a non-empty eligible list: when the
total weight is 0 it returns the first replica in registration order;
otherwise, for a draw `r` in `[0, W]`, it returns the first replica whose
cumulative weight reaches `r`, the inclusive boundary favouring the earlier
replica (every strictly earlier replica has cumulative weight strictly below
`r`). -/
theorem weighted_selection_algorithm (l : List (String × ℚ)) (r : ℚ) (hne : l ≠ [])
    (hr0 : 0 ≤ r) (hrW : r ≤ (l.map Prod.snd).sum) :
    ((l.map Prod.snd).sum = 0 → weighted_random_selection l r = (l.head hne).1) ∧
    ((l.map Prod.snd).sum ≠ 0 →
      ∃ k, ∃ hk : k < l.length, weighted_random_selection l r = (l.get ⟨k, hk⟩).1 ∧
        r ≤ cumWeight l k ∧ ∀ j, j < k → cumWeight l j < r) := by
  constructor
  · intro h0
    simp only [weighted_random_selection]
    rw [if_pos h0, List_headD_eq l hne]
  · intro h0
    simp only [weighted_random_selection]
    rw [if_neg h0]
    have hsome := selectLoop_isSome hne (by simpa using hrW) (r := r) (c := 0)
    cases heq : selectLoop r 0 l with
    | none => rw [heq] at hsome; simp at hsome
    | some p =>
      obtain ⟨k, hk, hget, hub, hlb⟩ := selectLoop_first heq
      refine ⟨k, hk, ?_, by simpa using hub, fun j hj => by simpa using hlb j hj⟩
      rw [hget]

/-- C10: the weighted random selection is total on non-empty lists and always
returns the name of a server of its input list; and whenever the accumulation
loop completes without the draw reaching the cumulative weight (nonnegative
weights, `W < r`), it falls back to the last server of the list. -/
theorem weighted_selection_total (l : List (String × ℚ)) (r : ℚ) (hne : l ≠ []) :
    weighted_random_selection l r ∈ l.map Prod.fst ∧
    ((∀ q ∈ l, 0 ≤ q.2) → (l.map Prod.snd).sum ≠ 0 → (l.map Prod.snd).sum < r →
      weighted_random_selection l r = (l.getLast hne).1) := by
  constructor
  · rw [weighted_random_selection]
    split
    · rw [List_headD_eq l hne]
      exact List.mem_map_of_mem _ (List.head_mem hne)
    · cases heq : selectLoop r 0 l with
      | none => rw [List_getLastD_eq l hne]
                exact List.mem_map_of_mem _ (List.getLast_mem hne)
      | some p => exact List.mem_map_of_mem _ (selectLoop_mem heq)
  · intro hw h0 hlt
    rw [weighted_random_selection]
    simp only [if_neg h0]
    rw [selectLoop_eq_none hw (by simpa using hlt)]
    rw [List_getLastD_eq l hne]

/-- C1 (amended): for a strictly positive draw `r ≤ W`, the weighted random
selection returns the name of a replica of the list whose weight is strictly
positive; in particular a weight-0 replica is never chosen for such draws. -/
theorem weighted_selection_positive_weight (l : List (String × ℚ)) (r : ℚ)
    (h0 : 0 < r) (hW : r ≤ (l.map Prod.snd).sum) :
    ∃ p ∈ l, weighted_random_selection l r = p.1 ∧ 0 < p.2 := by
  have hne : l ≠ [] := by
    rintro rfl
    simp at hW
    linarith
  have hsne : (l.map Prod.snd).sum ≠ 0 := by linarith
  rw [weighted_random_selection]
  simp only [if_neg hsne]
  have hsome := selectLoop_isSome hne (by simpa using hW) (r := r) (c := 0)
  cases heq : selectLoop r 0 l with
  | none => rw [heq] at hsome; simp at hsome
  | some p =>
    exact ⟨p, selectLoop_mem heq, rfl, selectLoop_pos heq (by simpa using h0)⟩

/-- C1 (counterexample): with eligible replicas `slave_1` at weight 0 and
`slave_2` at weight 1, total weight 1 > 0, the draw `r = 0` (which lies in
`[0, W]`) selects `slave_1`, whose weight is 0 — no positive-weight replica
is returned. -/
theorem weighted_selection_zero_draw_counterexample :
    (0 : ℚ) < ([("slave_1", (0 : ℚ)), ("slave_2", 1)].map Prod.snd).sum ∧
    weighted_random_selection [("slave_1", 0), ("slave_2", 1)] 0 = "slave_1" ∧
    ¬ ∃ p ∈ [("slave_1", (0 : ℚ)), ("slave_2", 1)],
        weighted_random_selection [("slave_1", 0), ("slave_2", 1)] 0 = p.1 ∧ 0 < p.2 := by
  have hsel : weighted_random_selection [("slave_1", (0 : ℚ)), ("slave_2", 1)] 0 = "slave_1" := by
    norm_num [weighted_random_selection, selectLoop]
  refine ⟨by norm_num, hsel, ?_⟩
  rintro ⟨p, hp, hpe, hpos⟩
  rw [hsel] at hpe
  simp only [List.mem_cons, List.mem_singleton, List.not_mem_nil, or_false] at hp
  rcases hp with rfl | rfl
  · exact absurd hpos (by norm_num)
  · exact absurd hpe (by decide)

/-- Witness for the C5 theorem at the singleton list `[("slave_1", 1)]` and
draw `r = 1`. -/
theorem weighted_selection_algorithm_witness :
    (0 : ℚ) ≤ 1 ∧ (1 : ℚ) ≤ ([("slave_1", (1 : ℚ))].map Prod.snd).sum ∧
    ([("slave_1", (1 : ℚ))].map Prod.snd).sum ≠ 0 ∧
    (∃ k, ∃ hk : k < [("slave_1", (1 : ℚ))].length,
      weighted_random_selection [("slave_1", 1)] 1 = ([("slave_1", (1 : ℚ))].get ⟨k, hk⟩).1 ∧
      1 ≤ cumWeight [("slave_1", 1)] k ∧
      ∀ j, j < k → cumWeight [("slave_1", 1)] j < 1) := by
  refine ⟨by norm_num, by norm_num, by norm_num, ?_⟩
  exact (weighted_selection_algorithm [("slave_1", 1)] 1 (by simp) (by norm_num)
    (by norm_num)).2 (by norm_num)

/-- Witness for the C10 theorem: with weights `[1, 0]` and draw `r = 2 > W`,
the fallback returns the last server, here the weight-0 `slave_2`. -/
theorem weighted_selection_total_witness :
    ([("slave_1", (1 : ℚ)), ("slave_2", 0)].map Prod.snd).sum < 2 ∧
    weighted_random_selection [("slave_1", 1), ("slave_2", 0)] 2
      ∈ [("slave_1", (1 : ℚ)), ("slave_2", 0)].map Prod.fst ∧
    weighted_random_selection [("slave_1", 1), ("slave_2", 0)] 2
      = (([("slave_1", (1 : ℚ)), ("slave_2", 0)].getLast (by simp))).1 := by
  have h := weighted_selection_total [("slave_1", 1), ("slave_2", 0)] 2 (by simp)
  refine ⟨by norm_num, h.1, h.2 ?_ ?_ ?_⟩
  · intro q hq
    fin_cases hq <;> norm_num
  · norm_num
  · norm_num

/-- Witness for the amended C1 theorem at the list `[("slave_1", 2)]` and
draw `r = 1`. -/
theorem weighted_selection_positive_weight_witness :
    (0 : ℚ) < 1 ∧ (1 : ℚ) ≤ ([("slave_1", (2 : ℚ))].map Prod.snd).sum ∧
    ∃ p ∈ [("slave_1", (2 : ℚ))],
      weighted_random_selection [("slave_1", 2)] 1 = p.1 ∧ 0 < p.2 :=
  ⟨by norm_num, by norm_num,
    weighted_selection_positive_weight [("slave_1", 2)] 1 (by norm_num) (by norm_num)⟩

/-! ## Claim theorems about construction and routing -/

/-- C4 (counterexample): constructing the connection manager from the empty
configuration list does not fail — no error value is produced, so no
`ConfigError` (or any other error) is raised. -/
theorem init_empty_counterexample :
    ¬ ∃ e, DatabaseConnectionManager.init ([] : List DBConfig) = Except.error e := by
  rintro ⟨e, h⟩
  simp [DatabaseConnectionManager.init] at h

/-- C4 (amended): construction performs no non-emptiness validation: on the
empty configuration list it succeeds, with no master configuration, no
slaves, and no weights. -/
theorem init_empty_succeeds :
    DatabaseConnectionManager.init ([] : List DBConfig) =
      Except.ok
        { db_configs := []
          master_config := none
          slave_configs := []
          connection_pools := []
          server_health := fun _ => false
          slave_weights := [] } := rfl

/-- C7 (counterexample): at a manager state with zero registered replicas
AND no master pool (reachable: `initialize_pools` not yet run, or the master
pool creation failed and was swallowed at lines 70-72), the fallback does not
return a primary-backed connection — it raises the
master-pool-not-initialized exception of `get_master_connection`
(connection_manager.py lines 77-78). -/
theorem read_fallback_no_master_counterexample :
    available_slaves
      { db_configs := []
        master_config := none
        slave_configs := []
        connection_pools := []
        server_health := fun _ => false
        slave_weights := [] } = [] ∧
    get_slave_connection
      { db_configs := []
        master_config := none
        slave_configs := []
        connection_pools := []
        server_health := fun _ => false
        slave_weights := [] } none 0 =
      Except.error ("Master 연결 풀이 초기화되지 않음") := ⟨rfl, rfl⟩

/-- C7 (amended): whenever no replica is available (in particular when zero
replicas are registered), `get_slave_connection` falls back to acquiring from
the master pool: if the master pool exists it returns a master-backed
connection and no error; if the master pool is missing, the fallback raises
`get_master_connection`'s master-pool-not-initialized exception instead. -/
theorem read_fallback_to_master (st : ManagerState) (prefer_server : Option String)
    (rand_val : ℚ) :
    (available_slaves st = [] →
      get_slave_connection st prefer_server rand_val = get_master_connection st) ∧
    (st.slave_configs = [] →
      get_slave_connection st prefer_server rand_val = get_master_connection st) ∧
    ("master" ∈ st.connection_pools → available_slaves st = [] →
      get_slave_connection st prefer_server rand_val = Except.ok Conn.master) := by
  refine ⟨?_, ?_, ?_⟩
  · intro h
    simp only [get_slave_connection]
    rw [if_pos h]
  · intro h
    have hav : available_slaves st = [] := by
      simp [available_slaves, h]
    simp only [get_slave_connection]
    rw [if_pos hav]
  · intro hm h
    simp only [get_slave_connection]
    rw [if_pos h]
    simp only [get_master_connection]
    rw [if_pos hm]

/-- Witness for the amended C7 theorem at a manager state with zero
registered replicas and an initialized master pool. -/
theorem read_fallback_to_master_witness :
    ("master" ∈ (["master"] : List String)) ∧
    available_slaves
      { db_configs := []
        master_config := none
        slave_configs := []
        connection_pools := ["master"]
        server_health := fun _ => false
        slave_weights := [] } = [] ∧
    get_slave_connection
      { db_configs := []
        master_config := none
        slave_configs := []
        connection_pools := ["master"]
        server_health := fun _ => false
        slave_weights := [] } none 0 = Except.ok Conn.master := by
  refine ⟨by simp, rfl, ?_⟩
  exact (read_fallback_to_master _ none 0).2.2 (by simp) rfl

/-! ## Claim theorems about the consistency verifier -/

/-- C2: a verification read reports `consistent = true` exactly when a row
was found whose stored payload equals the expected payload and whose stored
checksum equals the checksum recomputed from `(id, payload)`; a missing row,
either mismatch, or any error during the read yields `false`, and the
function is total (never raises). -/
theorem read_verify_iff (md5 : String → String) (outcome : ReadOutcome)
    (test_id expected_data : String) :
    read_and_verify md5 outcome test_id expected_data = true ↔
      ∃ row, outcome = ReadOutcome.ok (some row) ∧ row.test_data = expected_data ∧
        row.checksum = md5 (test_id ++ row.test_data) := by
  cases outcome with
  | err => simp [read_and_verify]
  | ok ro =>
    cases ro with
    | none => simp [read_and_verify]
    | some row =>
      simp only [read_and_verify, Bool.and_eq_true, beq_iff_eq,
        ReadOutcome.ok.injEq, Option.some.injEq]
      constructor
      · rintro ⟨h1, h2⟩
        exact ⟨row, rfl, h1, by rw [h1]; exact h2⟩
      · rintro ⟨row', hrow, h1, h2⟩
        cases hrow
        refine ⟨h1, ?_⟩
        rw [h1] at h2
        exact h2

/-- Witness for the C2 theorem: a stored row matching payload and recomputed
checksum (with the identity digest) verifies as consistent. -/
theorem read_verify_iff_witness :
    read_and_verify (fun s => s)
      (ReadOutcome.ok (some { test_data := "abc", checksum := "t1abc" })) "t1" "abc" = true :=
  (read_verify_iff (fun s => s) _ "t1" "abc").mpr
    ⟨{ test_data := "abc", checksum := "t1abc" }, rfl, rfl, rfl⟩

/-! ## Claim theorems about the health prober -/

/-- C6: a successful probe of a replica marks it healthy and sets its weight
from the measured latency — below 50 ms gives 1.2, at least 50 ms and below
100 ms gives 1.0, and 100 ms or more gives 0.8 (so 30 ms yields 1.2, 80 ms
yields 1.0, 150 ms yields 0.8) — while any probe failure marks it unhealthy
with weight forced to 0. -/
theorem health_check_weight_tiers (w t : ℚ) :
    (health_check_node true w (ProbeResult.ok t)).1 = true ∧
    (t < 0.05 → (health_check_node true w (ProbeResult.ok t)).2 = 1.2) ∧
    (0.05 ≤ t → t < 0.1 → (health_check_node true w (ProbeResult.ok t)).2 = 1.0) ∧
    (0.1 ≤ t → (health_check_node true w (ProbeResult.ok t)).2 = 0.8) ∧
    health_check_node true w ProbeResult.fail = (false, 0) ∧
    (health_check_node true w (ProbeResult.ok 0.03)).2 = 1.2 ∧
    (health_check_node true w (ProbeResult.ok 0.08)).2 = 1.0 ∧
    (health_check_node true w (ProbeResult.ok 0.15)).2 = 0.8 := by
  refine ⟨rfl, ?_, ?_, ?_, rfl, ?_, ?_, ?_⟩
  · intro h1
    simp [health_check_node, if_pos h1]
  · intro h1 h2
    simp [health_check_node, if_neg (not_lt.mpr h1), if_pos h2]
  · intro h1
    have h2 : ¬ t < 0.05 := not_lt.mpr (by linarith [show (0.05 : ℚ) ≤ 0.1 by norm_num])
    simp [health_check_node, if_neg h2, if_neg (not_lt.mpr h1)]
  · norm_num [health_check_node]
  · norm_num [health_check_node]
  · norm_num [health_check_node]

/-- Witness for the C6 theorem: a probe measuring 30 ms marks the replica
healthy with weight 1.2, and a failed probe forces weight 0. -/
theorem health_check_weight_tiers_witness :
    (0.03 : ℚ) < 0.05 ∧
    (health_check_node true 1 (ProbeResult.ok 0.03)).1 = true ∧
    (health_check_node true 1 (ProbeResult.ok 0.03)).2 = 1.2 ∧
    health_check_node true 1 ProbeResult.fail = (false, 0) := by
  have h := health_check_weight_tiers 1 0.03
  exact ⟨by norm_num, h.1, h.2.1 (by norm_num), h.2.2.2.2.1⟩

/-! ## Claim theorems about the failover simulation -/

/-- Supporting lemma for the failover simulation: the faithful parts of the
source's arithmetic.  `recovery_time_seconds` is the difference of the two
clock readings (which the source takes around the outage sleep PLUS the
recovery measurement — see `failover_never_excellent`),
`performance_impact_percent` equals
`|baseline.avgLatency − recovery.avgLatency| / baseline.avgLatency × 100`,
and the quality tiers are `EXCELLENT` when recovery time ≤ 30 s and impact
≤ 20 %, `GOOD` when (not `EXCELLENT` and) recovery time ≤ 60 s and impact
≤ 40 %, and `NEEDS_IMPROVEMENT` otherwise. -/
theorem failover_quality (failure_start failure_end : ℚ)
    (normal_performance recovery_performance : PerfResult)
    (hpos : 0 < normal_performance.avg_response_time) :
    (simulate_failover_test failure_start failure_end normal_performance
        recovery_performance).recovery_time_seconds = failure_end - failure_start ∧
    (simulate_failover_test failure_start failure_end normal_performance
        recovery_performance).performance_impact_percent =
      |normal_performance.avg_response_time - recovery_performance.avg_response_time|
        / normal_performance.avg_response_time * 100 ∧
    ((simulate_failover_test failure_start failure_end normal_performance
        recovery_performance).recovery_quality = RecoveryQuality.EXCELLENT ↔
      failure_end - failure_start ≤ 30 ∧
      |normal_performance.avg_response_time - recovery_performance.avg_response_time|
        / normal_performance.avg_response_time * 100 ≤ 20) ∧
    ((simulate_failover_test failure_start failure_end normal_performance
        recovery_performance).recovery_quality = RecoveryQuality.GOOD ↔
      ¬(failure_end - failure_start ≤ 30 ∧
        |normal_performance.avg_response_time - recovery_performance.avg_response_time|
          / normal_performance.avg_response_time * 100 ≤ 20) ∧
      (failure_end - failure_start ≤ 60 ∧
        |normal_performance.avg_response_time - recovery_performance.avg_response_time|
          / normal_performance.avg_response_time * 100 ≤ 40)) ∧
    ((simulate_failover_test failure_start failure_end normal_performance
        recovery_performance).recovery_quality = RecoveryQuality.NEEDS_IMPROVEMENT ↔
      ¬(failure_end - failure_start ≤ 30 ∧
        |normal_performance.avg_response_time - recovery_performance.avg_response_time|
          / normal_performance.avg_response_time * 100 ≤ 20) ∧
      ¬(failure_end - failure_start ≤ 60 ∧
        |normal_performance.avg_response_time - recovery_performance.avg_response_time|
          / normal_performance.avg_response_time * 100 ≤ 40)) := by
  have habs : |(normal_performance.avg_response_time
        - recovery_performance.avg_response_time)
        / normal_performance.avg_response_time * 100|
      = |normal_performance.avg_response_time - recovery_performance.avg_response_time|
          / normal_performance.avg_response_time * 100 := by
    rw [abs_mul, abs_div, abs_of_pos hpos]
    norm_num
  simp only [simulate_failover_test]
  rw [habs]
  refine ⟨by trivial, by trivial, ?_⟩
  split_ifs with h1 h2
  · exact ⟨⟨fun _ => h1, fun _ => rfl⟩,
      ⟨fun h => h.elim, fun h => absurd h1 h.1⟩,
      ⟨fun h => h.elim, fun h => absurd h1 h.1⟩⟩
  · exact ⟨⟨fun h => h.elim, fun hc => absurd hc h1⟩,
      ⟨fun _ => ⟨h1, h2⟩, fun _ => rfl⟩,
      ⟨fun h => h.elim, fun h => absurd h2 h.2⟩⟩
  · exact ⟨⟨fun h => h.elim, fun hc => absurd hc h1⟩,
      ⟨fun h => h.elim, fun h => absurd h.2 h2⟩,
      ⟨fun _ => ⟨h1, h2⟩, fun _ => rfl⟩⟩

theorem measure_loop_exit_ge {start_time duration t : ℚ} {checks : List ℚ}
    (h : measure_loop_exit start_time duration checks = some t) :
    start_time + duration ≤ t := by
  induction checks with
  | nil => exact Option.noConfusion h
  | cons now rest ih =>
    rw [measure_loop_exit] at h
    split at h
    · exact ih h
    · rename_i hge
      injection h with h
      subst h
      linarith [not_lt.mp hge]

/-- C3: the source reads `failure_end` only after the 30-second recovery
measurement returns (stability_test.py line 291), after the 5-second outage
sleep (line 283), so in any completed run — sleep advancing the clock by at
least 5 s, the measurement's while loop exiting only once 30 s have elapsed
since its start, and `time.time()` monotone — `recovery_time_seconds` is at
least 35 s: it is never the span of the outage window alone, the quality can
never be `EXCELLENT`, and `recovery_success` (the code's own 30-second
target) is always false, contrary to the claim's outage-window reading under
which Scenario D reaches `EXCELLENT`. -/
theorem failover_never_excellent
    (failure_start sleep_end ms_start failure_end t_exit : ℚ)
    (checks : List ℚ) (normal_performance recovery_performance : PerfResult)
    (hsleep : failure_start + 5 ≤ sleep_end)
    (hms : sleep_end ≤ ms_start)
    (hexit : measure_loop_exit ms_start 30 checks = some t_exit)
    (hend : t_exit ≤ failure_end) :
    35 ≤ (simulate_failover_test failure_start failure_end normal_performance
        recovery_performance).recovery_time_seconds ∧
    (simulate_failover_test failure_start failure_end normal_performance
        recovery_performance).recovery_quality ≠ RecoveryQuality.EXCELLENT ∧
    (simulate_failover_test failure_start failure_end normal_performance
        recovery_performance).recovery_success = false := by
  have hex := measure_loop_exit_ge hexit
  have h35 : failure_start + 35 ≤ failure_end := by linarith
  have hnot : ¬ failure_end - failure_start ≤ 30 := by linarith
  refine ⟨?_, ?_, ?_⟩
  · show (35 : ℚ) ≤ failure_end - failure_start
    linarith
  · simp only [simulate_failover_test]
    rw [if_neg (fun hc => hnot hc.1)]
    split_ifs
    · exact fun h => RecoveryQuality.noConfusion h
    · exact fun h => RecoveryQuality.noConfusion h
  · show decide (failure_end - failure_start ≤ 30) = false
    exact decide_eq_false hnot

/-- Witness for the C3 theorem at the earliest possible completed run:
outage sleep from 0 to 5, recovery measurement starting at 5 whose loop
exits at clock 35, `failure_end` read at 35; even with Scenario D's
latencies (10 ms baseline, 11 ms recovery) the recovery time is 35 s, the
quality is not `EXCELLENT`, and `recovery_success` is false. -/
theorem failover_never_excellent_witness :
    (0 : ℚ) + 5 ≤ 5 ∧ (5 : ℚ) ≤ 5 ∧
    measure_loop_exit 5 30 [35] = some 35 ∧ (35 : ℚ) ≤ 35 ∧
    (35 ≤ (simulate_failover_test 0 35 { qps := 1, avg_response_time := 10 }
        { qps := 1, avg_response_time := 11 }).recovery_time_seconds ∧
      (simulate_failover_test 0 35 { qps := 1, avg_response_time := 10 }
        { qps := 1, avg_response_time := 11 }).recovery_quality ≠
          RecoveryQuality.EXCELLENT ∧
      (simulate_failover_test 0 35 { qps := 1, avg_response_time := 10 }
        { qps := 1, avg_response_time := 11 }).recovery_success = false) := by
  have hexit : measure_loop_exit 5 30 [35] = some 35 := by
    rw [measure_loop_exit]
    rw [if_neg (by norm_num)]
  refine ⟨by norm_num, le_refl _, hexit, le_refl _, ?_⟩
  exact failover_never_excellent 0 5 5 35 35 [35]
    { qps := 1, avg_response_time := 10 } { qps := 1, avg_response_time := 11 }
    (by norm_num) (le_refl _) hexit (le_refl _)

/-! ## Lemmas and claim theorem for the capacity probe -/

theorem foldl_batch_step (batches : List Batch) (m e : Nat) :
    batches.foldl batch_step (m, e) =
      (batches.foldl (fun acc b => max acc ((b.outcomes.filter fun o => o = true).length)) m,
       e + (batches.map fun b => ((b.outcomes.filter fun o => o = false).length)).sum) := by
  induction batches generalizing m e with
  | nil => simp
  | cons hd tl ih =>
    simp only [List.foldl_cons, List.map_cons, List.sum_cons, batch_step]
    rw [ih]
    simp [Nat.add_assoc]

theorem foldl_max_le_of_forall {α : Type} (l : List α) (f : α → Nat) :
    ∀ (m n : Nat), m ≤ n → (∀ a ∈ l, f a ≤ n) →
      l.foldl (fun acc a => max acc (f a)) m ≤ n := by
  induction l with
  | nil =>
    intro m n hm _
    simpa using hm
  | cons hd tl ih =>
    intro m n hm h
    simp only [List.foldl_cons]
    exact ih _ _ (max_le hm (h hd (List.mem_cons_self _ _)))
      (fun a ha => h a (List.mem_cons_of_mem _ ha))

theorem init_le_foldl_max {α : Type} (l : List α) (f : α → Nat) (m : Nat) :
    m ≤ l.foldl (fun acc a => max acc (f a)) m := by
  induction l generalizing m with
  | nil => exact le_refl _
  | cons hd tl ih =>
    simp only [List.foldl_cons]
    exact le_trans (le_max_left _ _) (ih (max m (f hd)))

theorem le_foldl_max {α : Type} (l : List α) (f : α → Nat) {a : α} (ha : a ∈ l) :
    ∀ (m : Nat), f a ≤ l.foldl (fun acc a => max acc (f a)) m := by
  induction l with
  | nil => cases ha
  | cons hd tl ih =>
    intro m
    simp only [List.foldl_cons]
    rcases List.mem_cons.mp ha with rfl | ha2
    · exact le_trans (le_max_right _ _) (init_le_foldl_max tl f _)
    · exact ih ha2 _

theorem foldl_max_attained {α : Type} (l : List α) (f : α → Nat) (m : Nat) :
    l.foldl (fun acc a => max acc (f a)) m = m ∨
      ∃ a ∈ l, l.foldl (fun acc a => max acc (f a)) m = f a := by
  induction l generalizing m with
  | nil => exact Or.inl rfl
  | cons hd tl ih =>
    simp only [List.foldl_cons]
    rcases ih (max m (f hd)) with h | ⟨a, ha, h⟩
    · rw [h]
      rcases max_choice m (f hd) with h2 | h2
      · exact Or.inl h2
      · exact Or.inr ⟨hd, List.mem_cons_self _ _, h2⟩
    · exact Or.inr ⟨a, List.mem_cons_of_mem _ ha, h⟩

/-- C9: over the escalating batch schedule `[10, 50, 100, 200, 500]`,
`max_successful_connections` is the maximum over all batches of the number of
successful acquisitions in that batch (an upper bound of every batch's count,
attained by some batch), hence never exceeds 500, the largest batch size;
`connection_errors` is the total error count over all batches, and
`connection_stability` is `GOOD` exactly when that total is strictly below
10 (`POOR` otherwise). -/
theorem capacity_probe_max (batches : List Batch)
    (hsizes : batches.map Batch.batch_size = [10, 50, 100, 200, 500])
    (hlen : ∀ b ∈ batches, b.outcomes.length = b.batch_size) :
    (∀ b ∈ batches, (b.outcomes.filter fun o => o = true).length ≤
        (test_connection_pool_exhaustion batches).max_successful_connections) ∧
    (∃ b ∈ batches, (test_connection_pool_exhaustion batches).max_successful_connections =
        (b.outcomes.filter fun o => o = true).length) ∧
    (test_connection_pool_exhaustion batches).max_successful_connections ≤ 500 ∧
    ((test_connection_pool_exhaustion batches).connection_errors =
        (batches.map fun b => ((b.outcomes.filter fun o => o = false).length)).sum) ∧
    ((test_connection_pool_exhaustion batches).connection_stability = Stability.GOOD ↔
        (batches.map fun b => ((b.outcomes.filter fun o => o = false).length)).sum < 10) := by
  have key := foldl_batch_step batches 0 0
  have hmax : (test_connection_pool_exhaustion batches).max_successful_connections
      = batches.foldl (fun acc b => max acc ((b.outcomes.filter fun o => o = true).length)) 0 := by
    show (batches.foldl batch_step (0, 0)).1 = _
    rw [key]
  have herr : (test_connection_pool_exhaustion batches).connection_errors
      = (batches.map fun b => ((b.outcomes.filter fun o => o = false).length)).sum := by
    show (batches.foldl batch_step (0, 0)).2 = _
    rw [key]
    exact Nat.zero_add _
  have hstab : (test_connection_pool_exhaustion batches).connection_stability
      = if (batches.map fun b => ((b.outcomes.filter fun o => o = false).length)).sum < 10
        then Stability.GOOD else Stability.POOR := by
    show (if (batches.foldl batch_step (0, 0)).2 < 10
        then Stability.GOOD else Stability.POOR) = _
    rw [key]
    rw [Nat.zero_add]
  refine ⟨?_, ?_, ?_, herr, ?_⟩
  · intro b hb
    rw [hmax]
    exact le_foldl_max batches (fun b => ((b.outcomes.filter fun o => o = true).length)) hb 0
  · rw [hmax]
    rcases foldl_max_attained batches
        (fun b => ((b.outcomes.filter fun o => o = true).length)) 0 with h | ⟨a, ha, h⟩
    · have hne : batches ≠ [] := by
        intro hnil
        rw [hnil] at hsizes
        simp at hsizes
      obtain ⟨b, hb⟩ := List.exists_mem_of_ne_nil batches hne
      have h1 := le_foldl_max batches
        (fun b => ((b.outcomes.filter fun o => o = true).length)) hb 0
      rw [h] at h1
      rw [h]
      exact ⟨b, hb, by omega⟩
    · exact ⟨a, ha, h⟩
  · rw [hmax]
    refine foldl_max_le_of_forall _ _ _ _ (by omega) ?_
    intro b hb
    have h1 := List.length_filter_le (fun o => decide (o = true)) b.outcomes
    have h2 := hlen b hb
    have h3 : b.batch_size ∈ batches.map Batch.batch_size := List.mem_map_of_mem _ hb
    rw [hsizes] at h3
    simp only [List.mem_cons, List.not_mem_nil, or_false] at h3
    rcases h3 with h3 | h3 | h3 | h3 | h3 <;> omega
  · rw [hstab]
    split_ifs with hlt
    · exact ⟨fun _ => hlt, fun _ => rfl⟩
    · exact ⟨fun h => h.elim, fun h => absurd h hlt⟩

set_option maxRecDepth 10000 in
/-- Witness for the C9 theorem at a five-batch schedule in which every
acquisition succeeds. -/
theorem capacity_probe_max_witness :
    (∀ b ∈ [({ batch_size := 10, outcomes := List.replicate 10 true } : Batch),
            { batch_size := 50, outcomes := List.replicate 50 true },
            { batch_size := 100, outcomes := List.replicate 100 true },
            { batch_size := 200, outcomes := List.replicate 200 true },
            { batch_size := 500, outcomes := List.replicate 500 true }],
        b.outcomes.length = b.batch_size) ∧
    (test_connection_pool_exhaustion
        [({ batch_size := 10, outcomes := List.replicate 10 true } : Batch),
         { batch_size := 50, outcomes := List.replicate 50 true },
         { batch_size := 100, outcomes := List.replicate 100 true },
         { batch_size := 200, outcomes := List.replicate 200 true },
         { batch_size := 500, outcomes := List.replicate 500 true }]).max_successful_connections
      ≤ 500 := by
  have hlen : ∀ b ∈ [({ batch_size := 10, outcomes := List.replicate 10 true } : Batch),
      { batch_size := 50, outcomes := List.replicate 50 true },
      { batch_size := 100, outcomes := List.replicate 100 true },
      { batch_size := 200, outcomes := List.replicate 200 true },
      { batch_size := 500, outcomes := List.replicate 500 true }],
      b.outcomes.length = b.batch_size := by
    intro b hb
    fin_cases hb <;> (dsimp only; rw [List.length_replicate])
  have h := capacity_probe_max _ (by rfl) hlen
  exact ⟨hlen, h.2.2.1⟩

/-! ## Lemmas and claim theorem for the lag measurement -/

theorem poll_loop_some {write_end read_start : ℚ} {polls : List (ℚ × Bool)} {lag : ℚ}
    (h : poll_loop write_end read_start polls = some lag) :
    ∃ pre p post, polls = pre ++ p :: post ∧
      (∀ q ∈ pre, q.2 = false ∧ q.1 - read_start < 5) ∧
      p.2 = true ∧ p.1 - read_start < 5 ∧ lag = p.1 - write_end := by
  induction polls with
  | nil => simp [poll_loop] at h
  | cons hd tl ih =>
    obtain ⟨now, matched⟩ := hd
    rw [poll_loop] at h
    split at h
    · rename_i h5
      cases matched with
      | true =>
        simp only [if_true] at h
        refine ⟨[], (now, true), tl, rfl, by simp, rfl, h5, ?_⟩
        injection h with h
        exact h.symm
      | false =>
        simp only [Bool.false_eq_true, if_false] at h
        obtain ⟨pre, p, post, hsplit, hpre, hp2, hp5, hlag⟩ := ih h
        refine ⟨(now, false) :: pre, p, post, by rw [hsplit]; rfl, ?_, hp2, hp5, hlag⟩
        intro q hq
        rcases List.mem_cons.mp hq with rfl | hq2
        · exact ⟨rfl, h5⟩
        · exact hpre q hq2
    · exact Option.noConfusion h

theorem length_filterMap_isSome {α β : Type} (f : α → Option β) (l : List α) :
    (l.filterMap f).length = (l.filter fun a => (f a).isSome).length := by
  induction l with
  | nil => rfl
  | cons hd tl ih =>
    cases hf : f hd with
    | none => simp [List.filterMap_cons, List.filter_cons, hf, ih]
    | some b => simp [List.filterMap_cons, List.filter_cons, hf, ih]

/-- C8: in the lag-measurement protocol, every recorded sample comes from the
first successful match inside the 5-second polling window and equals the
clock reading at that match minus the write-completion time, hence is never
negative when the clock is monotone (polling starts no earlier than the write
completed); a replica whose polling yields no match contributes no sample
(exactly the runs whose poll finds a match contribute one sample each); and
an empty sample set yields average, maximum and minimum lag all zero. -/
theorem replication_lag_claims (runs : List LagRun)
    (hclock : ∀ run ∈ runs, run.write_end ≤ run.read_start ∧
      ∀ q ∈ run.polls, run.read_start ≤ q.1) :
    (∀ lag ∈ (test_replication_lag runs).measurements, 0 ≤ lag) ∧
    (∀ run ∈ runs, ∀ lag, poll_loop run.write_end run.read_start run.polls = some lag →
      ∃ pre p post, run.polls = pre ++ p :: post ∧
        (∀ q ∈ pre, q.2 = false ∧ q.1 - run.read_start < 5) ∧
        p.2 = true ∧ p.1 - run.read_start < 5 ∧ lag = p.1 - run.write_end) ∧
    ((test_replication_lag runs).measurements.length =
      (runs.filter fun run =>
        (poll_loop run.write_end run.read_start run.polls).isSome).length) ∧
    ((test_replication_lag runs).measurements = [] →
      (test_replication_lag runs).avg_lag_seconds = 0 ∧
      (test_replication_lag runs).max_lag_seconds = 0 ∧
      (test_replication_lag runs).min_lag_seconds = 0) := by
  have hmeas : (test_replication_lag runs).measurements =
      runs.filterMap fun run => poll_loop run.write_end run.read_start run.polls := rfl
  refine ⟨?_, ?_, ?_, ?_⟩
  · intro lag hlag
    rw [hmeas] at hlag
    obtain ⟨run, hrun, hpoll⟩ := List.mem_filterMap.mp hlag
    obtain ⟨pre, p, post, hsplit, hpre, hp2, hp5, hlageq⟩ := poll_loop_some hpoll
    have hpmem : p ∈ run.polls := by
      rw [hsplit]
      exact List.mem_append_right _ (List.mem_cons_self _ _)
    have h1 := (hclock run hrun).2 p hpmem
    have h0 := (hclock run hrun).1
    rw [hlageq]
    linarith
  · intro run _ lag hpoll
    exact poll_loop_some hpoll
  · rw [hmeas]
    exact length_filterMap_isSome _ _
  · intro hemp
    rw [hmeas] at hemp
    simp [test_replication_lag, hemp, lag_stats]

/-- Witness for the C8 theorem at a single run whose first poll matches
immediately. -/
theorem replication_lag_claims_witness :
    (∀ run ∈ [({ write_end := 0, read_start := 0, polls := [((0 : ℚ), true)] } : LagRun)],
      run.write_end ≤ run.read_start ∧ ∀ q ∈ run.polls, run.read_start ≤ q.1) ∧
    (∀ lag ∈ (test_replication_lag
        [({ write_end := 0, read_start := 0, polls := [((0 : ℚ), true)] } : LagRun)]).measurements,
      0 ≤ lag) := by
  have hclock : ∀ run ∈ [({ write_end := 0, read_start := 0, polls := [((0 : ℚ), true)] } : LagRun)],
      run.write_end ≤ run.read_start ∧ ∀ q ∈ run.polls, run.read_start ≤ q.1 := by
    intro run hrun
    fin_cases hrun
    refine ⟨le_refl _, ?_⟩
    intro q hq
    fin_cases hq
    norm_num
  exact ⟨hclock, (replication_lag_claims _ hclock).1⟩

end DistMySQL
